import Mathlib

/-!
Shallow embedding of the physics core of src/fishbowl/src/App.tsx:
the per-frame loop that advances falling pellets and rising bubbles,
removes pellets on fish collision or at the bowl floor, and moves each
fish's vertical depth toward the nearest pellet (or back to its baseline
when no pellet exists).  Coordinates are modelled as rationals.
-/

namespace Fishbowl

/-- A falling food pellet (type Pellet in App.tsx). -/
structure Pellet where
  id : ℕ
  xPct : ℚ
  yPx : ℚ
  vy : ℚ
  size : ℚ
deriving DecidableEq, Repr

/-- A rising bubble (type Bubble in App.tsx). -/
structure Bubble where
  id : ℕ
  xPct : ℚ
  yPx : ℚ
  vy : ℚ
  size : ℚ
  opacity : ℚ
deriving DecidableEq, Repr

/-- A fish's static spec; only id and baseline depth matter to the core
(type FishSpec in App.tsx; speedSec, scale, hue are presentation only). -/
structure FishSpec where
  id : ℕ
  depthPct : ℚ
deriving DecidableEq, Repr

/-- An axis-aligned rectangle in page coordinates (DOMRect as the code uses it). -/
structure Rect where
  left : ℚ
  right : ℚ
  top : ℚ
  bottom : ℚ
deriving DecidableEq, Repr

/-- The bowl's bounding rectangle (bowl.getBoundingClientRect()). -/
structure BowlRect where
  left : ℚ
  top : ℚ
  width : ℚ
  height : ℚ
deriving DecidableEq, Repr

/-- gravelHeight constant from the loop (const gravelHeight = 70). -/
def gravelHeight : ℚ := 70

/-- bottomY = rect.height - gravelHeight. -/
def bottomY (bowl : BowlRect) : ℚ := bowl.height - gravelHeight

/-- Math.sign as used on deltas: -1, 0 or 1. -/
def jsSign (q : ℚ) : ℚ := if q < 0 then -1 else if 0 < q then 1 else 0

/-- The advanced vertical position of a pellet: y = p.yPx + p.vy * dt. -/
def advanceY (p : Pellet) (dt : ℚ) : ℚ := p.yPx + p.vy * dt

/-- Does the pellet's box at advanced position y overlap some fish rect?
Mirrors the pelletRect construction and the fishRects.some(...) test. -/
def pelletHit (bowl : BowlRect) (rects : List (ℕ × Rect)) (p : Pellet) (y : ℚ) : Bool :=
  let pelletPxX := p.xPct / 100 * bowl.width
  let pLeft := bowl.left + pelletPxX - p.size / 2
  let pRight := bowl.left + pelletPxX + p.size / 2
  let pTop := bowl.top + y
  let pBottom := bowl.top + y + p.size
  rects.any (fun fr =>
    decide (fr.2.left ≤ pRight) && decide (pLeft ≤ fr.2.right) &&
    decide (fr.2.top ≤ pBottom) && decide (pTop ≤ fr.2.bottom))

/-- What happens to one pellet in one step: eaten by collision, vanished at
the bottom, or kept at its advanced position.  Mirrors the two `continue`
branches of the setPellets updater: the collision test comes first, the
bottom test (y >= bottomY - p.size) second. -/
inductive PelletFate where
  | eaten : PelletFate
  | landed : PelletFate
  | kept : ℚ → PelletFate
deriving DecidableEq, Repr

/-- Decide a single pellet's fate for the step. -/
def pelletFate (bowl : BowlRect) (rects : List (ℕ × Rect)) (dt : ℚ) (p : Pellet) :
    PelletFate :=
  let y := advanceY p dt
  if pelletHit bowl rects p y then .eaten
  else if bottomY bowl - p.size ≤ y then .landed
  else .kept y

/-- One kinematic step over the falling-pellet list (the setPellets updater). -/
def stepPellets (bowl : BowlRect) (rects : List (ℕ × Rect)) (dt : ℚ)
    (prev : List Pellet) : List Pellet :=
  prev.filterMap (fun p =>
    match pelletFate bowl rects dt p with
    | .kept y => some { p with yPx := y }
    | _ => none)

/-- One kinematic step over the rising-bubble list (the setBubbles updater):
y = b.yPx - b.vy * dt, despawn when y <= -b.size. -/
def stepBubbles (dt : ℚ) (prev : List Bubble) : List Bubble :=
  prev.filterMap (fun b =>
    let y := b.yPx - b.vy * dt
    if y ≤ -b.size then none else some { b with yPx := y })

/-- Point update of the fish-depth map (next.set(id, v)). -/
def updD (d : ℕ → Option ℚ) (id : ℕ) (v : ℚ) : ℕ → Option ℚ :=
  fun j => if j = id then some v else d j

/-- The rate-limited step shared by seek and relax:
step = delta when |delta| < m, else sign(delta) * m; returns current + step. -/
def rateStep (current target m : ℚ) : ℚ :=
  let delta := target - current
  let s := if |delta| < m then delta else jsSign delta * m
  current + s

/-- Sequential fold over the fish list updating the depth map, with the new
value for each fish computed from its lazily-defaulted current depth.  Both
the seek and the relax setFishDepths updaters have this shape. -/
def depthsFold (g : FishSpec → ℚ → ℚ) (fishL : List FishSpec)
    (d : ℕ → Option ℚ) : ℕ → Option ℚ :=
  fishL.foldl (fun next f =>
    let current := (next f.id).getD f.depthPct
    updD next f.id (g f current)) d

/-- The seek-branch setFishDepths updater: maxStep = 60 * dt, target from the
targets map with the fish's current depth as fallback. -/
def seekDepths (fishL : List FishSpec) (tgt : ℕ → Option ℚ) (dt : ℚ)
    (d : ℕ → Option ℚ) : ℕ → Option ℚ :=
  depthsFold (fun f current => rateStep current ((tgt f.id).getD current) (60 * dt)) fishL d

/-- The relax-branch setFishDepths updater: easeBackPerSec = 20, target is the
fish's baseline depthPct. -/
def relaxDepths (fishL : List FishSpec) (dt : ℚ) (d : ℕ → Option ℚ) :
    ℕ → Option ℚ :=
  depthsFold (fun f current => rateStep current f.depthPct (20 * dt)) fishL d

/-- The reference y used when scanning pellets for a fish:
rect.height * ((fishDepths.get(id) ?? 50) / 100). -/
def refYFor (bowl : BowlRect) (d : ℕ → Option ℚ) (id : ℕ) : ℚ :=
  bowl.height * ((d id).getD 50 / 100)

/-- The nearest pellet by |p.yPx - refY|, first-encountered winning ties
(bestDist starts at Infinity, updated on strict <). -/
def bestDistPellet (refY : ℚ) (ps : List Pellet) : Option Pellet :=
  ps.foldl (fun best p =>
    match best with
    | none => some p
    | some b => if |p.yPx - refY| < |b.yPx - refY| then some p else best) none

/-- One iteration of the targets loop: if the fish rect's id finds a nearest
pellet, record its clamped target percentage max(5, min(95, y/height*100)). -/
def tgtUpd (bowl : BowlRect) (ps : List Pellet) (d : ℕ → Option ℚ)
    (tgt : ℕ → Option ℚ) (pr : ℕ × Rect) : ℕ → Option ℚ :=
  match bestDistPellet (refYFor bowl d pr.1) ps with
  | none => tgt
  | some bp => updD tgt pr.1 (max 5 (min 95 (bp.yPx / bowl.height * 100)))

/-- The per-fish targets map: for each id with a rect, the nearest pellet's
position converted to a clamped percentage. -/
def computeTargets (bowl : BowlRect) (rects : List (ℕ × Rect)) (ps : List Pellet)
    (d : ℕ → Option ℚ) : ℕ → Option ℚ :=
  rects.foldl (tgtUpd bowl ps d) (fun _ => none)

/-- Whether the targets map ends up non-empty (targets.size > 0): some rect id
got a nearest pellet assigned. -/
def targetsNonempty (bowl : BowlRect) (rects : List (ℕ × Rect)) (ps : List Pellet)
    (d : ℕ → Option ℚ) : Bool :=
  rects.any (fun pr => (bestDistPellet (refYFor bowl d pr.1) ps).isSome)

/-- The simulation state the loop mutates: pellets, bubbles, fishDepths. -/
structure SimState where
  pellets : List Pellet
  bubbles : List Bubble
  depths : ℕ → Option ℚ

/-- One un-paused frame body (the code inside `if (bowl) { ... }`): advance
pellets and bubbles, then run the seek branch if the pellets state read by
the closure (the pre-step list) is non-empty, else the relax branch. -/
def physicsStep (bowl : BowlRect) (rects : List (ℕ × Rect)) (fishL : List FishSpec)
    (dt : ℚ) (s : SimState) : SimState :=
  let pellets1 := stepPellets bowl rects dt s.pellets
  let bubbles1 := stepBubbles dt s.bubbles
  let depths1 :=
    if s.pellets.isEmpty then
      relaxDepths fishL dt s.depths
    else if targetsNonempty bowl rects s.pellets s.depths then
      seekDepths fishL (computeTargets bowl rects s.pellets s.depths) dt s.depths
    else s.depths
  ⟨pellets1, bubbles1, depths1⟩

/-- The per-frame delta time: dt = min(0.05, (now - last) / 1000). -/
def clockDt (lastT now : ℚ) : ℚ := min (5 / 100) ((now - lastT) / 1000)

/-- Driver state: the clock's last timestamp, the paused flag, the sim state. -/
structure DriverState where
  lastT : ℚ
  paused : Bool
  sim : SimState

/-- One invocation of loop(now): compute dt, unconditionally set last = now,
and run the physics body only when not paused. -/
def loopStep (bowl : BowlRect) (rects : List (ℕ × Rect)) (fishL : List FishSpec)
    (st : DriverState) (now : ℚ) : DriverState :=
  let dt := clockDt st.lastT now
  let sim1 := if st.paused then st.sim else physicsStep bowl rects fishL dt st.sim
  ⟨now, st.paused, sim1⟩

/-- Per-frame external inputs: the bowl rect, the fish rects, the fish list,
and the timestamp handed to loop. -/
structure StepInput where
  bowl : BowlRect
  rects : List (ℕ × Rect)
  fishL : List FishSpec
  now : ℚ

/-- Run a sequence of frames. -/
def runLoop : DriverState → List StepInput → DriverState
  | st, [] => st
  | st, i :: is => runLoop (loopStep i.bowl i.rects i.fishL st i.now) is

/-- The timestamps of the input sequence are non-decreasing starting from t. -/
def nowsMonoB : ℚ → List StepInput → Bool
  | _, [] => true
  | t, i :: is => decide (t ≤ i.now) && nowsMonoB i.now is

/-- Every fish baseline in every frame's fish list lies in [18, 82]. -/
def baselinesOkB (inputs : List StepInput) : Bool :=
  inputs.all (fun i => i.fishL.all (fun f => decide (18 ≤ f.depthPct) && decide (f.depthPct ≤ 82)))

/-- Every entry of the depth map lies in [5, 95]. -/
def depthsIn (d : ℕ → Option ℚ) : Prop :=
  ∀ id v, d id = some v → 5 ≤ v ∧ v ≤ 95

/-- Variant of the frame body written from the spec's ordering words: the
Seek Controller reads the particle set after the Kinematic Layer has
resolved this step's updates and removals (it branches on and scans the
post-step pellet list).  Used only to compare against physicsStep, which
follows the code. -/
def physicsStepPostRead (bowl : BowlRect) (rects : List (ℕ × Rect)) (fishL : List FishSpec)
    (dt : ℚ) (s : SimState) : SimState :=
  let pellets1 := stepPellets bowl rects dt s.pellets
  let bubbles1 := stepBubbles dt s.bubbles
  let depths1 :=
    if pellets1.isEmpty then
      relaxDepths fishL dt s.depths
    else if targetsNonempty bowl rects pellets1 s.depths then
      seekDepths fishL (computeTargets bowl rects pellets1 s.depths) dt s.depths
    else s.depths
  ⟨pellets1, bubbles1, depths1⟩

/-- Pellets spawned by one feed(count) call, with the randomized draws
(xPct, vy) injected as a list; each pellet takes id ++pelletId, starts at
yPx = -8 and has size 6. -/
def feedAux : List (ℚ × ℚ) → ℕ → List Pellet
  | [], _ => []
  | v :: vs, pid => ⟨pid + 1, v.1, -8, v.2, 6⟩ :: feedAux vs (pid + 1)

/-- The feed handler: appends the new pellets and advances the pelletId
counter by the spawn count. -/
def feed (vals : List (ℚ × ℚ)) (pid : ℕ) (prev : List Pellet) : ℕ × List Pellet :=
  (pid + vals.length, prev ++ feedAux vals pid)

/-- Bubbles spawned by one blowBubbles(count) call, draws injected as
(xPct, yOffset, vy, size, opacity); each bubble takes id ++bubbleId and
starts at startY + yOffset where startY = rect.height - 80. -/
def blowAux (startY : ℚ) : List (ℚ × ℚ × ℚ × ℚ × ℚ) → ℕ → List Bubble
  | [], _ => []
  | v :: vs, bid =>
      ⟨bid + 1, v.1, startY + v.2.1, v.2.2.1, v.2.2.2.1, v.2.2.2.2⟩ :: blowAux startY vs (bid + 1)

/-- The blowBubbles handler: appends the new bubbles and advances the
bubbleId counter by the spawn count. -/
def blowBubbles (vals : List (ℚ × ℚ × ℚ × ℚ × ℚ)) (startY : ℚ) (bid : ℕ)
    (prev : List Bubble) : ℕ × List Bubble :=
  (bid + vals.length, prev ++ blowAux startY vals bid)

/-! Concrete scenario constants used by the theorems below. -/

/-- A 400 x 400 bowl at the page origin. -/
def simpleBowl : BowlRect := ⟨0, 0, 400, 400⟩

/-- Driver state for the non-monotonic-time scenario: last = 1000, running,
one pellet at y = 100 falling at 140 px/s. -/
def c2State : DriverState := ⟨1000, false, ⟨[⟨1, 50, 100, 140, 6⟩], [], fun _ => none⟩⟩

/-- The bowl of the termination scenario: height 470, so the floor line
bottomY = 470 - 70 = 400. -/
def c7Bowl : BowlRect := ⟨0, 0, 400, 470⟩

/-- One frame of the termination scenario: dt = 1 s, no fish rects, no fish. -/
def c7g : SimState → SimState := physicsStep c7Bowl [] [] 1

/-- Termination scenario state with the single pellet at height y. -/
def c7St (y : ℚ) : SimState := ⟨[⟨1, 50, y, 140, 6⟩], [], fun _ => none⟩

/-- Termination scenario state after the pellet is removed. -/
def c7Empty : SimState := ⟨[], [], fun _ => none⟩

/-- A fish rect far outside the bowl, so no pellet ever collides with it. -/
def farRects : List (ℕ × Rect) := [(0, ⟨10000, 10001, 0, 1⟩)]

/-- The exact rate-limited motion toward a fixed target over a time budget a:
reach the target if it is within a, else move a toward it.  Used to relate
one big rate-limited step to many small ones. -/
def closedForm (c t a : ℚ) : ℚ := if |t - c| ≤ a then t else c + jsSign (t - c) * a

/-- State for the relax witness: no pellets, fish 0 parked at depth 50. -/
def wRelaxState : SimState := ⟨[], [], fun j => if j = 0 then some 50 else none⟩

/-- State for the no-rect witness: one pellet, fish 1 has no depth entry. -/
def wNoRectState : SimState := ⟨[⟨2, 50, 100, 140, 6⟩], [], fun _ => none⟩

/-- Fish list of the stale-read scenario: one fish at depth 26. -/
def c1Fish : List FishSpec := [⟨0, 26⟩]

/-- State of the stale-read scenario: one pellet at y = 100 (descending to
107 this step), fish 0 currently at depth 26. -/
def c1State : SimState := ⟨[⟨1, 50, 100, 140, 6⟩], [], fun j => if j = 0 then some 26 else none⟩

/-- Fish rect for the collision-precedence witness, straddling the floor. -/
def c4Rects : List (ℕ × Rect) := [(0, ⟨190, 210, 320, 340⟩)]

/-- Pellet for the collision-precedence witness: its advanced position 330
overlaps the rect and is past the floor line 330 - 6 = 324. -/
def c4P : Pellet := ⟨1, 50, 320, 10, 6⟩

/-- Fish list of the dt-splitting scenario: one fish with baseline 50. -/
def c6Fish : List FishSpec := [⟨0, 50⟩]

/-- Initial depth map of the dt-splitting scenario: fish 0 at depth 50. -/
def c6Dinit : ℕ → Option ℚ := fun j => if j = 0 then some 50 else none

/-- One frame of the dt-splitting scenario with dt = 0.1. -/
def c6g : SimState → SimState := physicsStep simpleBowl farRects c6Fish (1 / 10)

/-- One frame of the dt-splitting scenario with dt = 1. -/
def c6gBig : SimState → SimState := physicsStep simpleBowl farRects c6Fish 1

/-- Initial state of the dt-splitting scenario: one pellet at y = 0. -/
def c6S0 : SimState := ⟨[⟨1, 50, 0, 140, 6⟩], [], c6Dinit⟩

/-- Intermediate state of the dt-splitting scenario. -/
def c6St (y dep : ℚ) : SimState := ⟨[⟨1, 50, y, 140, 6⟩], [], updD c6Dinit 0 dep⟩

/-! General lemmas about the depth-map update and the rate-limited step. -/

/-- Applying a point update. -/
lemma updD_apply (d : ℕ → Option ℚ) (id : ℕ) (v : ℚ) (j : ℕ) :
    updD d id v j = if j = id then some v else d j := rfl

/-- A second write to the same id overwrites the first. -/
lemma updD_updD_self (d : ℕ → Option ℚ) (id : ℕ) (v w : ℚ) :
    updD (updD d id v) id w = updD d id w := by
  funext j
  by_cases h : j = id <;> simp [updD, h]

/-- Math.sign of a negative number. -/
lemma jsSign_neg {q : ℚ} (h : q < 0) : jsSign q = -1 := by
  simp [jsSign, h]

/-- Math.sign of a positive number. -/
lemma jsSign_pos {q : ℚ} (h : 0 < q) : jsSign q = 1 := by
  simp [jsSign, h, not_lt_of_gt h]

/-- A rate-limited step toward the current position stays put. -/
lemma rateStep_self (c m : ℚ) : rateStep c c m = c := by
  simp only [rateStep, jsSign, sub_self, abs_zero]
  split_ifs <;> linarith

/-- A rate-limited step from inside [5, 95] toward a target inside [5, 95]
with a nonnegative budget stays inside [5, 95]. -/
lemma rateStep_mem (c t m : ℚ) (hc5 : 5 ≤ c) (hc95 : c ≤ 95) (ht5 : 5 ≤ t)
    (ht95 : t ≤ 95) (hm : 0 ≤ m) : 5 ≤ rateStep c t m ∧ rateStep c t m ≤ 95 := by
  rcases lt_trichotomy (t - c) 0 with h | h | h
  · simp only [rateStep]
    rw [abs_of_neg h, jsSign_neg h]
    split_ifs with h1 <;> constructor <;> linarith
  · have ht : t = c := by linarith
    rw [ht, rateStep_self]
    exact ⟨hc5, hc95⟩
  · simp only [rateStep]
    rw [abs_of_pos h, jsSign_pos h]
    split_ifs with h1 <;> constructor <;> linarith

/-- One rate-limited step with nonnegative budget m moves the coordinate by
at most m. -/
lemma rateStep_move_le (c t m : ℚ) (hm : 0 ≤ m) : |rateStep c t m - c| ≤ m := by
  rcases lt_trichotomy (t - c) 0 with h | h | h
  · simp only [rateStep]
    rw [abs_of_neg h, jsSign_neg h]
    split_ifs with h1
    · rw [add_sub_cancel_left, abs_of_neg h]
      linarith
    · rw [add_sub_cancel_left, neg_one_mul, abs_neg, abs_of_nonneg hm]
  · have ht : t = c := by linarith
    rw [ht, rateStep_self, sub_self, abs_zero]
    exact hm
  · simp only [rateStep]
    rw [abs_of_pos h, jsSign_pos h]
    split_ifs with h1
    · rw [add_sub_cancel_left, abs_of_pos h]
      linarith
    · rw [add_sub_cancel_left, one_mul, abs_of_nonneg hm]

/-- Unfolding one fish of the depth-map fold. -/
lemma depthsFold_cons (g : FishSpec → ℚ → ℚ) (f : FishSpec) (fs : List FishSpec)
    (d : ℕ → Option ℚ) :
    depthsFold g (f :: fs) d =
      depthsFold g fs (updD d f.id (g f ((d f.id).getD f.depthPct))) := rfl

/-- The depth-map fold does not touch ids outside the fish list. -/
lemma depthsFold_other (g : FishSpec → ℚ → ℚ) (fishL : List FishSpec)
    (d : ℕ → Option ℚ) (j : ℕ) (hj : j ∉ fishL.map FishSpec.id) :
    depthsFold g fishL d j = d j := by
  induction fishL generalizing d with
  | nil => rfl
  | cons f fs ih =>
      simp only [List.map_cons, List.mem_cons, not_or] at hj
      rw [depthsFold_cons, ih _ hj.2, updD_apply, if_neg hj.1]

/-- With no duplicate fish ids, the depth-map fold writes each fish's entry
once, from its lazily-defaulted current depth. -/
lemma depthsFold_apply (g : FishSpec → ℚ → ℚ) (fishL : List FishSpec)
    (d : ℕ → Option ℚ) (f : FishSpec) (hmem : f ∈ fishL)
    (hnd : (fishL.map FishSpec.id).Nodup) :
    depthsFold g fishL d f.id = some (g f ((d f.id).getD f.depthPct)) := by
  induction fishL generalizing d with
  | nil => simp at hmem
  | cons f0 fs ih =>
      simp only [List.map_cons, List.nodup_cons] at hnd
      rcases List.mem_cons.1 hmem with rfl | hmem'
      · rw [depthsFold_cons, depthsFold_other _ _ _ _ hnd.1, updD_apply, if_pos rfl]
      · have hne : f.id ≠ f0.id := by
          intro he
          exact hnd.1 (he ▸ List.mem_map_of_mem FishSpec.id hmem')
        rw [depthsFold_cons, ih _ hmem' hnd.2, updD_apply, if_neg hne]

/-- The depth-map fold preserves the [5, 95] invariant provided each fish's
update function does and each fish's lazy default lies in [5, 95]. -/
lemma depthsFold_bounds (g : FishSpec → ℚ → ℚ) (fishL : List FishSpec)
    (d : ℕ → Option ℚ)
    (hg : ∀ f ∈ fishL, ∀ c, 5 ≤ c → c ≤ 95 → 5 ≤ g f c ∧ g f c ≤ 95)
    (hbase : ∀ f ∈ fishL, 5 ≤ f.depthPct ∧ f.depthPct ≤ 95)
    (hd : depthsIn d) : depthsIn (depthsFold g fishL d) := by
  induction fishL generalizing d with
  | nil => exact hd
  | cons f0 fs ih =>
      rw [depthsFold_cons]
      refine ih _ (fun f hf => hg f (List.mem_cons_of_mem _ hf))
        (fun f hf => hbase f (List.mem_cons_of_mem _ hf)) ?_
      intro id v hv
      rw [updD_apply] at hv
      by_cases hid : id = f0.id
      · rw [if_pos hid] at hv
        have hv' : v = g f0 ((d f0.id).getD f0.depthPct) := (Option.some_inj.1 hv).symm
        have hc : 5 ≤ (d f0.id).getD f0.depthPct ∧ (d f0.id).getD f0.depthPct ≤ 95 := by
          cases hdf : d f0.id with
          | none => simpa using hbase f0 (List.mem_cons_self f0 fs)
          | some w => simpa [hdf] using hd f0.id w hdf
        rw [hv']
        exact hg f0 (List.mem_cons_self f0 fs) _ hc.1 hc.2
      · rw [if_neg hid] at hv
        exact hd id v hv

/-- The targets fold leaves ids without a rect unset. -/
lemma tgtFold_other (bowl : BowlRect) (ps : List Pellet) (d : ℕ → Option ℚ)
    (rs : List (ℕ × Rect)) (acc : ℕ → Option ℚ) (j : ℕ)
    (hj : j ∉ rs.map Prod.fst) (hacc : acc j = none) :
    (rs.foldl (tgtUpd bowl ps d) acc) j = none := by
  induction rs generalizing acc with
  | nil => exact hacc
  | cons r rs ih =>
      simp only [List.map_cons, List.mem_cons, not_or] at hj
      rw [List.foldl_cons]
      refine ih _ hj.2 ?_
      cases hbd : bestDistPellet (refYFor bowl d r.1) ps with
      | none => simpa [tgtUpd, hbd] using hacc
      | some bp =>
          simp only [tgtUpd, hbd]
          rw [updD_apply, if_neg hj.1]
          exact hacc

/-- An agent id with no fish rect gets no seek target. -/
lemma computeTargets_other (bowl : BowlRect) (rects : List (ℕ × Rect))
    (ps : List Pellet) (d : ℕ → Option ℚ) (j : ℕ) (hj : j ∉ rects.map Prod.fst) :
    computeTargets bowl rects ps d j = none :=
  tgtFold_other bowl ps d rects _ j hj rfl

/-- Every value the targets fold stores lies in [5, 95]. -/
lemma tgtFold_mem (bowl : BowlRect) (ps : List Pellet) (d : ℕ → Option ℚ)
    (rs : List (ℕ × Rect)) (acc : ℕ → Option ℚ)
    (hacc : ∀ j v, acc j = some v → 5 ≤ v ∧ v ≤ 95) :
    ∀ j v, (rs.foldl (tgtUpd bowl ps d) acc) j = some v → 5 ≤ v ∧ v ≤ 95 := by
  induction rs generalizing acc with
  | nil => exact hacc
  | cons r rs ih =>
      rw [List.foldl_cons]
      refine ih _ ?_
      intro j v hv
      cases hbd : bestDistPellet (refYFor bowl d r.1) ps with
      | none =>
          simp only [tgtUpd, hbd] at hv
          exact hacc j v hv
      | some bp =>
          simp only [tgtUpd, hbd] at hv
          rw [updD_apply] at hv
          by_cases hj : j = r.1
          · rw [if_pos hj] at hv
            have hv' : v = max 5 (min 95 (bp.yPx / bowl.height * 100)) :=
              (Option.some_inj.1 hv).symm
            rw [hv']
            exact ⟨le_max_left _ _, max_le (by norm_num) (min_le_left _ _)⟩
          · rw [if_neg hj] at hv
            exact hacc j v hv

/-- Every target the Seek Controller computes lies in [5, 95]. -/
lemma computeTargets_mem (bowl : BowlRect) (rects : List (ℕ × Rect))
    (ps : List Pellet) (d : ℕ → Option ℚ) :
    ∀ j v, computeTargets bowl rects ps d j = some v → 5 ≤ v ∧ v ≤ 95 :=
  tgtFold_mem bowl ps d rects _ (fun j v hv => by simp at hv)

/-- A non-decreasing pair of timestamps yields a nonnegative dt. -/
lemma clockDt_nonneg (lastT now : ℚ) (h : lastT ≤ now) : 0 ≤ clockDt lastT now :=
  le_min (by norm_num) (div_nonneg (by linarith) (by norm_num))

/-- One un-paused frame keeps every fish depth inside [5, 95], given a
nonnegative dt and baselines inside [18, 82]. -/
lemma physicsStep_depthsIn (bowl : BowlRect) (rects : List (ℕ × Rect))
    (fishL : List FishSpec) (dt : ℚ) (s : SimState) (hdt : 0 ≤ dt)
    (hbase : ∀ f ∈ fishL, 18 ≤ f.depthPct ∧ f.depthPct ≤ 82)
    (hd : depthsIn s.depths) : depthsIn (physicsStep bowl rects fishL dt s).depths := by
  have hbase' : ∀ f ∈ fishL, 5 ≤ f.depthPct ∧ f.depthPct ≤ 95 := fun f hf =>
    ⟨by linarith [(hbase f hf).1], by linarith [(hbase f hf).2]⟩
  simp only [physicsStep, relaxDepths, seekDepths]
  split_ifs with h1 h2
  · exact depthsFold_bounds _ _ _
      (fun f hf c hc5 hc95 =>
        rateStep_mem c f.depthPct (20 * dt) hc5 hc95 (hbase' f hf).1 (hbase' f hf).2
          (by linarith))
      hbase' hd
  · refine depthsFold_bounds _ _ _ ?_ hbase' hd
    intro f hf c hc5 hc95
    cases htv : computeTargets bowl rects s.pellets s.depths f.id with
    | none => simpa [htv] using rateStep_mem c c (60 * dt) hc5 hc95 hc5 hc95 (by linarith)
    | some v =>
        have hv := computeTargets_mem bowl rects s.pellets s.depths f.id v htv
        simpa [htv] using rateStep_mem c v (60 * dt) hc5 hc95 hv.1 hv.2 (by linarith)
  · exact hd

/-- The clock's last timestamp after a frame is the frame's now. -/
lemma loopStep_lastT (bowl : BowlRect) (rects : List (ℕ × Rect))
    (fishL : List FishSpec) (st : DriverState) (now : ℚ) :
    (loopStep bowl rects fishL st now).lastT = now := rfl

/-- C3: along any run of the loop whose timestamps never decrease and whose
fish baselines stay in [18, 82], every entry of the fish-depth map stays in
[5, 95] whenever it starts there (the seek target is clamped into [5, 95],
the relax target is the baseline, and the rate-limited step never
overshoots). -/
theorem agent_depth_clamp_invariant (st : DriverState) (inputs : List StepInput)
    (hmono : nowsMonoB st.lastT inputs = true)
    (hbase : baselinesOkB inputs = true)
    (hd : depthsIn st.sim.depths) :
    depthsIn (runLoop st inputs).sim.depths := by
  induction inputs generalizing st with
  | nil => exact hd
  | cons i is ih =>
      simp only [nowsMonoB, Bool.and_eq_true, decide_eq_true_eq] at hmono
      simp only [baselinesOkB, List.all_cons, Bool.and_eq_true] at hbase
      rw [runLoop]
      refine ih _ ?_ ?_ ?_
      · rw [loopStep_lastT]
        exact hmono.2
      · exact hbase.2
      · by_cases hp : st.paused = true
        · simp only [loopStep, hp, if_true]
          exact hd
        · rw [Bool.not_eq_true] at hp
          simp only [loopStep, hp, Bool.false_eq_true, if_false]
          refine physicsStep_depthsIn _ _ _ _ _
            (clockDt_nonneg _ _ hmono.1) ?_ hd
          intro f hf
          have hb := hbase.1
          simp only [List.all_eq_true, Bool.and_eq_true, decide_eq_true_eq] at hb
          exact hb f hf

/-- Witness for agent_depth_clamp_invariant: a two-frame run from an empty
depth map with one fish and one pellet. -/
theorem agent_depth_clamp_invariant_witness :
    depthsIn (runLoop ⟨1000, false, ⟨[⟨1, 50, 100, 140, 6⟩], [], fun _ => none⟩⟩
      [⟨simpleBowl, farRects, [⟨0, 50⟩], 1016⟩,
       ⟨simpleBowl, farRects, [⟨0, 50⟩], 1032⟩]).sim.depths :=
  agent_depth_clamp_invariant _ _ (by norm_num [nowsMonoB])
    (by norm_num [baselinesOkB]) (fun id v hv => by simp at hv)

/-- C9: on a step whose pre-step falling-pellet set is empty, each fish's
depth entry is written by the rate-limited step toward its baseline with
budget 20 * dt (the relax rate), and so moves by at most 20 * dt — never at
the faster seek rate of 60 per second. -/
theorem relax_rate_limited_toward_baseline (bowl : BowlRect) (rects : List (ℕ × Rect))
    (fishL : List FishSpec) (dt : ℚ) (s : SimState) (f : FishSpec)
    (hemp : s.pellets = []) (hmem : f ∈ fishL)
    (hnd : (fishL.map FishSpec.id).Nodup) (hdt : 0 ≤ dt) :
    (physicsStep bowl rects fishL dt s).depths f.id =
      some (rateStep ((s.depths f.id).getD f.depthPct) f.depthPct (20 * dt)) ∧
    |rateStep ((s.depths f.id).getD f.depthPct) f.depthPct (20 * dt) -
        (s.depths f.id).getD f.depthPct| ≤ 20 * dt := by
  constructor
  · have hdep : (physicsStep bowl rects fishL dt s).depths = relaxDepths fishL dt s.depths := by
      simp [physicsStep, hemp]
    rw [hdep, relaxDepths]
    exact depthsFold_apply _ _ _ f hmem hnd
  · exact rateStep_move_le _ _ _ (by linarith)

/-- Witness for relax_rate_limited_toward_baseline with baseline 30, dt 0.1. -/
theorem relax_rate_limited_toward_baseline_witness :
    (physicsStep simpleBowl [] [⟨0, 30⟩] (1 / 10) wRelaxState).depths (0 : ℕ) =
      some (rateStep ((wRelaxState.depths (0 : ℕ)).getD 30) 30 (20 * (1 / 10))) ∧
    |rateStep ((wRelaxState.depths (0 : ℕ)).getD 30) 30 (20 * (1 / 10)) -
        (wRelaxState.depths (0 : ℕ)).getD 30| ≤ 20 * (1 / 10) :=
  relax_rate_limited_toward_baseline simpleBowl [] [⟨0, 30⟩] (1 / 10) wRelaxState ⟨0, 30⟩
    rfl (List.mem_singleton.2 rfl) (by simp) (by norm_num)

/-- C10: on a step with pellets present, a fish whose id has no rendered
rect gets no seek target, so its depth (with its lazy baseline default) is
left exactly as it was — it neither seeks nor relaxes. -/
theorem fish_without_rect_unchanged (bowl : BowlRect) (rects : List (ℕ × Rect))
    (fishL : List FishSpec) (dt : ℚ) (s : SimState) (f : FishSpec)
    (hne : s.pellets ≠ []) (hmem : f ∈ fishL)
    (hnd : (fishL.map FishSpec.id).Nodup) (hrect : f.id ∉ rects.map Prod.fst) :
    ((physicsStep bowl rects fishL dt s).depths f.id).getD f.depthPct =
      (s.depths f.id).getD f.depthPct := by
  have hne' : s.pellets.isEmpty = false := by
    cases hps : s.pellets with
    | nil => exact absurd hps hne
    | cons p ps => rfl
  by_cases htn : targetsNonempty bowl rects s.pellets s.depths = true
  · have hdep : (physicsStep bowl rects fishL dt s).depths =
        seekDepths fishL (computeTargets bowl rects s.pellets s.depths) dt s.depths := by
      simp [physicsStep, hne', htn]
    rw [hdep, seekDepths, depthsFold_apply _ _ _ f hmem hnd,
      computeTargets_other _ _ _ _ _ hrect]
    simp [rateStep_self]
  · have hdep : (physicsStep bowl rects fishL dt s).depths = s.depths := by
      simp [physicsStep, hne', htn]
    rw [hdep]

/-- Witness for fish_without_rect_unchanged: fish 1 has no rect (only fish 0
does), so its depth stays at its baseline default 40. -/
theorem fish_without_rect_unchanged_witness :
    ((physicsStep simpleBowl farRects [⟨1, 40⟩] (1 / 20) wNoRectState).depths
        ((⟨1, 40⟩ : FishSpec).id)).getD (⟨1, 40⟩ : FishSpec).depthPct =
      (wNoRectState.depths ((⟨1, 40⟩ : FishSpec).id)).getD (⟨1, 40⟩ : FishSpec).depthPct :=
  fish_without_rect_unchanged simpleBowl farRects [⟨1, 40⟩] (1 / 20) wNoRectState ⟨1, 40⟩
    (by simp [wNoRectState]) (List.mem_singleton.2 rfl) (by simp) (by norm_num [farRects])

/-- C1 (amended): on a step with pellets present and a non-empty targets
map, each fish's new depth entry is the rate-limited step toward the target
computed from the PRE-step pellet list s.pellets (the React state the loop
closure read), not from the post-kinematics list. -/
theorem seek_target_from_prestep_pellets (bowl : BowlRect) (rects : List (ℕ × Rect))
    (fishL : List FishSpec) (dt : ℚ) (s : SimState) (f : FishSpec)
    (hne : s.pellets ≠ []) (hmem : f ∈ fishL)
    (hnd : (fishL.map FishSpec.id).Nodup)
    (htn : targetsNonempty bowl rects s.pellets s.depths = true) :
    (physicsStep bowl rects fishL dt s).depths f.id =
      some (rateStep ((s.depths f.id).getD f.depthPct)
        ((computeTargets bowl rects s.pellets s.depths f.id).getD
          ((s.depths f.id).getD f.depthPct)) (60 * dt)) := by
  have hne' : s.pellets.isEmpty = false := by
    cases hps : s.pellets with
    | nil => exact absurd hps hne
    | cons p ps => rfl
  have hdep : (physicsStep bowl rects fishL dt s).depths =
      seekDepths fishL (computeTargets bowl rects s.pellets s.depths) dt s.depths := by
    simp [physicsStep, hne', htn]
  rw [hdep, seekDepths]
  exact depthsFold_apply _ _ _ f hmem hnd

/-- Counterexample to C1 as stated: with dt = 0.05 the pellet advances from
y = 100 to y = 107, yet the code's seek step drives fish 0 to 25 (the target
computed from the pre-step y = 100), while reading the post-kinematics
pellet set as the claim demands would drive it to 26.75. -/
theorem seek_reads_prestep_pellets_cex :
    (physicsStep simpleBowl farRects c1Fish (1 / 20) c1State).depths 0 = some 25 ∧
    (physicsStepPostRead simpleBowl farRects c1Fish (1 / 20) c1State).depths 0 =
      some (107 / 4) ∧
    some (25 : ℚ) ≠ some (107 / 4 : ℚ) := by
  refine ⟨?_, ?_, by norm_num⟩
  · norm_num [physicsStep, stepPellets, stepBubbles, pelletFate, advanceY, pelletHit,
      List.filterMap_cons, bottomY, gravelHeight, targetsNonempty, bestDistPellet, refYFor,
      computeTargets, tgtUpd, seekDepths, relaxDepths, depthsFold, updD_apply, rateStep,
      jsSign, simpleBowl, farRects, c1Fish, c1State]
  · have habs : |(3 : ℚ) / 4| = 3 / 4 := abs_of_pos (by norm_num)
    norm_num [physicsStepPostRead, stepPellets, stepBubbles, pelletFate, advanceY, pelletHit,
      List.filterMap_cons, bottomY, gravelHeight, targetsNonempty, bestDistPellet, refYFor,
      computeTargets, tgtUpd, seekDepths, relaxDepths, depthsFold, updD_apply, rateStep,
      jsSign, simpleBowl, farRects, c1Fish, c1State, habs]

/-- Witness for seek_target_from_prestep_pellets at the stale-read scenario. -/
theorem seek_target_from_prestep_pellets_witness :
    (physicsStep simpleBowl farRects c1Fish (1 / 20) c1State).depths
        ((⟨0, 26⟩ : FishSpec).id) =
      some (rateStep ((c1State.depths ((⟨0, 26⟩ : FishSpec).id)).getD
          (⟨0, 26⟩ : FishSpec).depthPct)
        ((computeTargets simpleBowl farRects c1State.pellets c1State.depths
            ((⟨0, 26⟩ : FishSpec).id)).getD
          ((c1State.depths ((⟨0, 26⟩ : FishSpec).id)).getD (⟨0, 26⟩ : FishSpec).depthPct))
        (60 * (1 / 20))) :=
  seek_target_from_prestep_pellets simpleBowl farRects c1Fish (1 / 20) c1State ⟨0, 26⟩
    (by simp [c1State]) (List.mem_singleton.2 rfl) (by simp [c1Fish])
    (by norm_num [targetsNonempty, bestDistPellet, refYFor, farRects, c1State])

/-- C4: a pellet whose advanced position both overlaps a fish rect and
crosses the floor line is decided by the collision test first: its fate is
eaten, and the step removes exactly that one pellet from the list. -/
theorem overlap_and_floor_pellet_eaten (bowl : BowlRect) (rects : List (ℕ × Rect))
    (dt : ℚ) (p : Pellet) (rest : List Pellet)
    (hhit : pelletHit bowl rects p (advanceY p dt) = true)
    (hfloor : bottomY bowl - p.size ≤ advanceY p dt) :
    pelletFate bowl rects dt p = .eaten ∧
    stepPellets bowl rects dt (p :: rest) = stepPellets bowl rects dt rest := by
  have hf : pelletFate bowl rects dt p = .eaten := by
    simp [pelletFate, hhit]
  exact ⟨hf, by simp [stepPellets, List.filterMap_cons, hf]⟩

/-- Witness for overlap_and_floor_pellet_eaten. -/
theorem overlap_and_floor_pellet_eaten_witness :
    pelletFate simpleBowl c4Rects 1 c4P = .eaten ∧
    stepPellets simpleBowl c4Rects 1 (c4P :: []) = stepPellets simpleBowl c4Rects 1 [] :=
  overlap_and_floor_pellet_eaten simpleBowl c4Rects 1 c4P []
    (by norm_num [pelletHit, advanceY, simpleBowl, c4Rects, c4P, List.any_cons,
      List.any_nil])
    (by norm_num [bottomY, gravelHeight, advanceY, simpleBowl, c4P])

/-- Every pellet a feed call spawns has an id in (pid, pid + count]. -/
lemma feedAux_id_bounds : ∀ (vals : List (ℚ × ℚ)) (pid : ℕ) (q : Pellet),
    q ∈ feedAux vals pid → pid < q.id ∧ q.id ≤ pid + vals.length := by
  intro vals
  induction vals with
  | nil =>
      intro pid q hq
      simp [feedAux] at hq
  | cons v vs ih =>
      intro pid q hq
      simp only [feedAux, List.mem_cons] at hq
      simp only [List.length_cons]
      rcases hq with rfl | hq'
      · refine ⟨?_, ?_⟩
        · show pid < pid + 1
          omega
        · show pid + 1 ≤ pid + (vs.length + 1)
          omega
      · have h := ih (pid + 1) q hq'
        omega

/-- The pellets a feed call spawns carry pairwise distinct ids. -/
lemma feedAux_nodup : ∀ (vals : List (ℚ × ℚ)) (pid : ℕ),
    ((feedAux vals pid).map Pellet.id).Nodup := by
  intro vals
  induction vals with
  | nil =>
      intro pid
      simp [feedAux]
  | cons v vs ih =>
      intro pid
      simp only [feedAux, List.map_cons, List.nodup_cons]
      refine ⟨?_, ih (pid + 1)⟩
      intro hmem
      rcases List.mem_map.1 hmem with ⟨q, hq, hqid⟩
      have hlt := (feedAux_id_bounds vs (pid + 1) q hq).1
      have hqid' : q.id = pid + 1 := hqid
      omega

/-- Every bubble a blowBubbles call spawns has an id in (bid, bid + count]. -/
lemma blowAux_id_bounds : ∀ (vals : List (ℚ × ℚ × ℚ × ℚ × ℚ)) (startY : ℚ) (bid : ℕ)
    (q : Bubble), q ∈ blowAux startY vals bid → bid < q.id ∧ q.id ≤ bid + vals.length := by
  intro vals
  induction vals with
  | nil =>
      intro startY bid q hq
      simp [blowAux] at hq
  | cons v vs ih =>
      intro startY bid q hq
      simp only [blowAux, List.mem_cons] at hq
      simp only [List.length_cons]
      rcases hq with rfl | hq'
      · refine ⟨?_, ?_⟩
        · show bid < bid + 1
          omega
        · show bid + 1 ≤ bid + (vs.length + 1)
          omega
      · have h := ih startY (bid + 1) q hq'
        omega

/-- The bubbles a blowBubbles call spawns carry pairwise distinct ids. -/
lemma blowAux_nodup : ∀ (vals : List (ℚ × ℚ × ℚ × ℚ × ℚ)) (startY : ℚ) (bid : ℕ),
    ((blowAux startY vals bid).map Bubble.id).Nodup := by
  intro vals
  induction vals with
  | nil =>
      intro startY bid
      simp [blowAux]
  | cons v vs ih =>
      intro startY bid
      simp only [blowAux, List.map_cons, List.nodup_cons]
      refine ⟨?_, ih startY (bid + 1)⟩
      intro hmem
      rcases List.mem_map.1 hmem with ⟨q, hq, hqid⟩
      have hlt := (blowAux_id_bounds vs startY (bid + 1) q hq).1
      have hqid' : q.id = bid + 1 := hqid
      omega

/-- C5 (amended): each spawn kind draws from its own counter, so within the
falling set and within the rising set ids stay pairwise distinct, every id
stays at or below that kind's counter, and the counter only grows — ids are
monotone and never reused within a kind. -/
theorem spawn_ids_unique_per_kind (vals : List (ℚ × ℚ)) (pid : ℕ) (prev : List Pellet)
    (bvals : List (ℚ × ℚ × ℚ × ℚ × ℚ)) (startY : ℚ) (bid : ℕ) (bprev : List Bubble)
    (hp : ∀ q ∈ prev, q.id ≤ pid) (hpn : (prev.map Pellet.id).Nodup)
    (hb : ∀ q ∈ bprev, q.id ≤ bid) (hbn : (bprev.map Bubble.id).Nodup) :
    (((feed vals pid prev).2.map Pellet.id).Nodup ∧
      (∀ q ∈ (feed vals pid prev).2, q.id ≤ (feed vals pid prev).1) ∧
      pid ≤ (feed vals pid prev).1) ∧
    (((blowBubbles bvals startY bid bprev).2.map Bubble.id).Nodup ∧
      (∀ q ∈ (blowBubbles bvals startY bid bprev).2, q.id ≤ (blowBubbles bvals startY bid bprev).1) ∧
      bid ≤ (blowBubbles bvals startY bid bprev).1) := by
  constructor
  · refine ⟨?_, ?_, ?_⟩
    · show ((prev ++ feedAux vals pid).map Pellet.id).Nodup
      rw [List.map_append]
      refine List.Nodup.append hpn (feedAux_nodup vals pid) ?_
      intro a ha hb'
      rcases List.mem_map.1 ha with ⟨q, hq, rfl⟩
      rcases List.mem_map.1 hb' with ⟨q', hq', he⟩
      have h1 := hp q hq
      have h2 := (feedAux_id_bounds vals pid q' hq').1
      omega
    · intro q hq
      rcases List.mem_append.1 hq with h | h
      · have := hp q h
        show q.id ≤ pid + vals.length
        omega
      · exact (feedAux_id_bounds vals pid q h).2
    · exact Nat.le_add_right _ _
  · refine ⟨?_, ?_, ?_⟩
    · show ((bprev ++ blowAux startY bvals bid).map Bubble.id).Nodup
      rw [List.map_append]
      refine List.Nodup.append hbn (blowAux_nodup bvals startY bid) ?_
      intro a ha hb'
      rcases List.mem_map.1 ha with ⟨q, hq, rfl⟩
      rcases List.mem_map.1 hb' with ⟨q', hq', he⟩
      have h1 := hb q hq
      have h2 := (blowAux_id_bounds bvals startY bid q' hq').1
      omega
    · intro q hq
      rcases List.mem_append.1 hq with h | h
      · have := hb q h
        show q.id ≤ bid + bvals.length
        omega
      · exact (blowAux_id_bounds bvals startY bid q h).2
    · exact Nat.le_add_right _ _

/-- Witness for spawn_ids_unique_per_kind: one feed of two pellets and one
blow of one bubble from the initial counters. -/
theorem spawn_ids_unique_per_kind_witness :
    (((feed [(50, 140), (60, 150)] 0 []).2.map Pellet.id).Nodup ∧
      (∀ q ∈ (feed [(50, 140), (60, 150)] 0 []).2,
        q.id ≤ (feed [(50, 140), (60, 150)] 0 []).1) ∧
      0 ≤ (feed [(50, 140), (60, 150)] 0 []).1) ∧
    (((blowBubbles [(50, 0, 130, 8, 9 / 10)] 320 0 []).2.map Bubble.id).Nodup ∧
      (∀ q ∈ (blowBubbles [(50, 0, 130, 8, 9 / 10)] 320 0 []).2,
        q.id ≤ (blowBubbles [(50, 0, 130, 8, 9 / 10)] 320 0 []).1) ∧
      0 ≤ (blowBubbles [(50, 0, 130, 8, 9 / 10)] 320 0 []).1) :=
  spawn_ids_unique_per_kind [(50, 140), (60, 150)] 0 [] [(50, 0, 130, 8, 9 / 10)] 320 0 []
    (fun q hq => by simp at hq) (by simp) (fun q hq => by simp at hq) (by simp)

/-- Counterexample to C5 as stated: after one feed and one blowBubbles call
from the initial counters, the falling set holds pellet id 1 and the rising
set holds bubble id 1 — the two kinds use independent counters (pelletId and
bubbleId both start at 0), so the sets can share a numeric id. -/
theorem pellet_and_bubble_share_id_cex :
    (feed [(50, 140)] 0 []).2.map Pellet.id = [1] ∧
    (blowBubbles [(50, 0, 130, 8, 9 / 10)] 320 0 []).2.map Bubble.id = [1] :=
  ⟨rfl, rfl⟩

/-- A zero time budget leaves the coordinate in place. -/
lemma closedForm_zero (c t : ℚ) : closedForm c t 0 = c := by
  unfold closedForm
  split_ifs with h
  · have h0 : t - c = 0 := abs_nonpos_iff.mp h
    linarith
  · ring

/-- The code's rate-limited step equals the closed-form bounded motion. -/
lemma rateStep_eq_closed (c t m : ℚ) (hm : 0 ≤ m) : rateStep c t m = closedForm c t m := by
  rcases lt_trichotomy (t - c) 0 with h | h | h
  · simp only [rateStep, closedForm]
    rw [abs_of_neg h, jsSign_neg h]
    rcases lt_or_ge (-(t - c)) m with h1 | h1
    · rw [if_pos h1, if_pos (le_of_lt h1)]
      ring
    · rw [if_neg (not_lt.2 h1)]
      by_cases h2 : -(t - c) ≤ m
      · rw [if_pos h2]
        have he : -(t - c) = m := le_antisymm h2 h1
        linarith
      · rw [if_neg h2]
  · have ht : t = c := by linarith
    rw [ht, rateStep_self]
    simp [closedForm, hm]
  · simp only [rateStep, closedForm]
    rw [abs_of_pos h, jsSign_pos h]
    rcases lt_or_ge (t - c) m with h1 | h1
    · rw [if_pos h1, if_pos (le_of_lt h1)]
      ring
    · rw [if_neg (not_lt.2 h1)]
      by_cases h2 : t - c ≤ m
      · rw [if_pos h2]
        have he : t - c = m := le_antisymm h2 h1
        linarith
      · rw [if_neg h2]

/-- The closed-form bounded motion as a clamp of the remaining delta. -/
lemma closedForm_eq_clamp (c t a : ℚ) (ha : 0 ≤ a) :
    closedForm c t a = c + max (-a) (min a (t - c)) := by
  unfold closedForm
  rcases lt_trichotomy (t - c) 0 with h | h | h
  · rw [jsSign_neg h]
    by_cases h1 : |t - c| ≤ a
    · rw [if_pos h1]
      rw [abs_of_neg h] at h1
      rw [min_eq_right (by linarith), max_eq_right (by linarith)]
      ring
    · rw [if_neg h1]
      rw [abs_of_neg h] at h1
      have h2 : a < -(t - c) := by linarith [not_le.1 h1]
      rw [min_eq_right (by linarith), max_eq_left (by linarith)]
      ring
  · rw [h, abs_zero, if_pos ha, min_eq_right ha, max_eq_right (by linarith : -a ≤ (0 : ℚ))]
    linarith
  · rw [jsSign_pos h]
    by_cases h1 : |t - c| ≤ a
    · rw [if_pos h1]
      rw [abs_of_pos h] at h1
      rw [min_eq_right h1, max_eq_right (by linarith)]
      ring
    · rw [if_neg h1]
      rw [abs_of_pos h] at h1
      have h2 : a < t - c := by linarith [not_le.1 h1]
      rw [min_eq_left (by linarith), max_eq_right (by linarith)]
      ring

/-- Splitting a clamped move into two consecutive clamped moves. -/
lemma clamp_comp (a b d : ℚ) (ha : 0 ≤ a) (hb : 0 ≤ b) :
    max (-a) (min a d) + max (-b) (min b (d - max (-a) (min a d))) =
      max (-(a + b)) (min (a + b) d) := by
  simp only [max_def, min_def]
  split_ifs <;> linarith

/-- Bounded motion toward a fixed target composes additively in the budget. -/
lemma closedForm_comp (c t a b : ℚ) (ha : 0 ≤ a) (hb : 0 ≤ b) :
    closedForm (closedForm c t a) t b = closedForm c t (a + b) := by
  rw [closedForm_eq_clamp c t a ha]
  rw [closedForm_eq_clamp _ t b hb, closedForm_eq_clamp c t (a + b) (by linarith)]
  have hd : t - (c + max (-a) (min a (t - c))) = (t - c) - max (-a) (min a (t - c)) := by
    ring
  rw [hd]
  have hc := clamp_comp a b (t - c) ha hb
  linarith

/-- n rate-limited steps of budget m toward a fixed target are the
closed-form motion with budget n * m. -/
lemma closedForm_iterate (t m : ℚ) (hm : 0 ≤ m) :
    ∀ (n : ℕ) (c : ℚ), (fun x => rateStep x t m)^[n] c = closedForm c t (n * m) := by
  intro n
  induction n with
  | zero =>
      intro c
      simp [closedForm_zero]
  | succ k ih =>
      intro c
      rw [Function.iterate_succ_apply, ih (rateStep c t m), rateStep_eq_closed c t m hm,
        closedForm_comp c t m ((k : ℚ) * m) hm (mul_nonneg (by positivity) hm)]
      congr 1
      push_cast
      ring

/-- C6 (amended): frame-rate independence holds for the two motion rules in
isolation: the constant-velocity pellet advance is additive in dt, and ten
rate-limited steps of budget r/10 toward a fixed target equal one step of
budget r.  (For the full frame it fails, because the seek target is
recomputed from the moving pellet each substep; see the counterexample.) -/
theorem fixed_target_frame_rate_independent :
    (∀ (c t r : ℚ), 0 ≤ r → (fun x => rateStep x t (r / 10))^[10] c = rateStep c t r) ∧
    (∀ (p : Pellet) (a b : ℚ),
      advanceY { p with yPx := advanceY p a } b = advanceY p (a + b)) := by
  constructor
  · intro c t r hr
    rw [closedForm_iterate t (r / 10) (by linarith) 10 c, rateStep_eq_closed c t r hr]
    congr 1
    push_cast
    ring
  · intro p a b
    simp only [advanceY]
    ring

/-- Witness for fixed_target_frame_rate_independent at the seek rate 60 and
a pellet advanced by 0.4 then 0.6 seconds. -/
theorem fixed_target_frame_rate_independent_witness :
    ((fun x => rateStep x (80 : ℚ) (60 / 10))^[10] 50 = rateStep 50 80 60) ∧
    advanceY { (⟨1, 50, 0, 140, 6⟩ : Pellet) with
        yPx := advanceY ⟨1, 50, 0, 140, 6⟩ (4 / 10) } (6 / 10) =
      advanceY ⟨1, 50, 0, 140, 6⟩ (4 / 10 + 6 / 10) :=
  ⟨fixed_target_frame_rate_independent.1 50 80 60 (by norm_num),
   fixed_target_frame_rate_independent.2 ⟨1, 50, 0, 140, 6⟩ (4 / 10) (6 / 10)⟩

lemma c6chain1 : c6g c6S0 = c6St 14 44 := by
  norm_num [c6g, c6S0, c6St, physicsStep, stepPellets, stepBubbles, pelletFate, advanceY,
    pelletHit, List.filterMap_cons, bottomY, gravelHeight, targetsNonempty, bestDistPellet,
    refYFor, computeTargets, tgtUpd, seekDepths, relaxDepths, depthsFold, updD_apply,
    updD_updD_self, rateStep, jsSign, simpleBowl, farRects, c6Fish, c6Dinit]

lemma c6chain2 : c6g (c6St 14 44) = c6St 28 38 := by
  norm_num [c6g, c6St, physicsStep, stepPellets, stepBubbles, pelletFate, advanceY,
    pelletHit, List.filterMap_cons, bottomY, gravelHeight, targetsNonempty, bestDistPellet,
    refYFor, computeTargets, tgtUpd, seekDepths, relaxDepths, depthsFold, updD_apply,
    updD_updD_self, rateStep, jsSign, simpleBowl, farRects, c6Fish, c6Dinit]

lemma c6chain3 : c6g (c6St 28 38) = c6St 42 32 := by
  norm_num [c6g, c6St, physicsStep, stepPellets, stepBubbles, pelletFate, advanceY,
    pelletHit, List.filterMap_cons, bottomY, gravelHeight, targetsNonempty, bestDistPellet,
    refYFor, computeTargets, tgtUpd, seekDepths, relaxDepths, depthsFold, updD_apply,
    updD_updD_self, rateStep, jsSign, simpleBowl, farRects, c6Fish, c6Dinit]

lemma c6chain4 : c6g (c6St 42 32) = c6St 56 26 := by
  have ha : |(43 : ℚ) / 2| = 43 / 2 := abs_of_pos (by norm_num)
  norm_num [c6g, c6St, physicsStep, stepPellets, stepBubbles, pelletFate, advanceY,
    pelletHit, List.filterMap_cons, bottomY, gravelHeight, targetsNonempty, bestDistPellet,
    refYFor, computeTargets, tgtUpd, seekDepths, relaxDepths, depthsFold, updD_apply,
    updD_updD_self, rateStep, jsSign, simpleBowl, farRects, c6Fish, c6Dinit, ha]

lemma c6chain5 : c6g (c6St 56 26) = c6St 70 20 := by
  norm_num [c6g, c6St, physicsStep, stepPellets, stepBubbles, pelletFate, advanceY,
    pelletHit, List.filterMap_cons, bottomY, gravelHeight, targetsNonempty, bestDistPellet,
    refYFor, computeTargets, tgtUpd, seekDepths, relaxDepths, depthsFold, updD_apply,
    updD_updD_self, rateStep, jsSign, simpleBowl, farRects, c6Fish, c6Dinit]

lemma c6chain6 : c6g (c6St 70 20) = c6St 84 (35 / 2) := by
  have ha : |(5 : ℚ) / 2| = 5 / 2 := abs_of_pos (by norm_num)
  norm_num [c6g, c6St, physicsStep, stepPellets, stepBubbles, pelletFate, advanceY,
    pelletHit, List.filterMap_cons, bottomY, gravelHeight, targetsNonempty, bestDistPellet,
    refYFor, computeTargets, tgtUpd, seekDepths, relaxDepths, depthsFold, updD_apply,
    updD_updD_self, rateStep, jsSign, simpleBowl, farRects, c6Fish, c6Dinit, ha]

lemma c6chain7 : c6g (c6St 84 (35 / 2)) = c6St 98 21 := by
  have ha : |(7 : ℚ) / 2| = 7 / 2 := abs_of_pos (by norm_num)
  norm_num [c6g, c6St, physicsStep, stepPellets, stepBubbles, pelletFate, advanceY,
    pelletHit, List.filterMap_cons, bottomY, gravelHeight, targetsNonempty, bestDistPellet,
    refYFor, computeTargets, tgtUpd, seekDepths, relaxDepths, depthsFold, updD_apply,
    updD_updD_self, rateStep, jsSign, simpleBowl, farRects, c6Fish, c6Dinit, ha]

lemma c6chain8 : c6g (c6St 98 21) = c6St 112 (49 / 2) := by
  have ha : |(7 : ℚ) / 2| = 7 / 2 := abs_of_pos (by norm_num)
  norm_num [c6g, c6St, physicsStep, stepPellets, stepBubbles, pelletFate, advanceY,
    pelletHit, List.filterMap_cons, bottomY, gravelHeight, targetsNonempty, bestDistPellet,
    refYFor, computeTargets, tgtUpd, seekDepths, relaxDepths, depthsFold, updD_apply,
    updD_updD_self, rateStep, jsSign, simpleBowl, farRects, c6Fish, c6Dinit, ha]

lemma c6chain9 : c6g (c6St 112 (49 / 2)) = c6St 126 28 := by
  have ha : |(7 : ℚ) / 2| = 7 / 2 := abs_of_pos (by norm_num)
  norm_num [c6g, c6St, physicsStep, stepPellets, stepBubbles, pelletFate, advanceY,
    pelletHit, List.filterMap_cons, bottomY, gravelHeight, targetsNonempty, bestDistPellet,
    refYFor, computeTargets, tgtUpd, seekDepths, relaxDepths, depthsFold, updD_apply,
    updD_updD_self, rateStep, jsSign, simpleBowl, farRects, c6Fish, c6Dinit, ha]

lemma c6chain10 : c6g (c6St 126 28) = c6St 140 (63 / 2) := by
  have ha : |(7 : ℚ) / 2| = 7 / 2 := abs_of_pos (by norm_num)
  norm_num [c6g, c6St, physicsStep, stepPellets, stepBubbles, pelletFate, advanceY,
    pelletHit, List.filterMap_cons, bottomY, gravelHeight, targetsNonempty, bestDistPellet,
    refYFor, computeTargets, tgtUpd, seekDepths, relaxDepths, depthsFold, updD_apply,
    updD_updD_self, rateStep, jsSign, simpleBowl, farRects, c6Fish, c6Dinit, ha]

lemma c6big : c6gBig c6S0 = c6St 140 5 := by
  norm_num [c6gBig, c6S0, c6St, physicsStep, stepPellets, stepBubbles, pelletFate, advanceY,
    pelletHit, List.filterMap_cons, bottomY, gravelHeight, targetsNonempty, bestDistPellet,
    refYFor, computeTargets, tgtUpd, seekDepths, relaxDepths, depthsFold, updD_apply,
    updD_updD_self, rateStep, jsSign, simpleBowl, farRects, c6Fish, c6Dinit]

/-- Counterexample to C6 as stated: from one pellet at y = 0 and one fish at
depth 50, ten frames of dt = 0.1 leave the fish at 31.5 while a single frame
of dt = 1 puts it at 5 — the pellet positions agree (y = 140, no collision
and no removal in between), but the agent coordinates differ by 26.5, far
beyond any floating tolerance. -/
theorem dt_split_changes_seek_cex :
    (c6g^[10] c6S0).depths 0 = some (63 / 2) ∧
    (c6gBig c6S0).depths 0 = some 5 ∧
    (c6g^[10] c6S0).pellets = (c6gBig c6S0).pellets ∧
    some (63 / 2 : ℚ) ≠ some (5 : ℚ) := by
  have h10 : c6g^[10] c6S0 = c6St 140 (63 / 2) := by
    rw [show c6g^[10] c6S0 =
        c6g (c6g (c6g (c6g (c6g (c6g (c6g (c6g (c6g (c6g c6S0))))))))) from rfl]
    rw [c6chain1, c6chain2, c6chain3, c6chain4, c6chain5, c6chain6, c6chain7, c6chain8,
      c6chain9, c6chain10]
  refine ⟨?_, ?_, ?_, by norm_num⟩
  · rw [h10]
    norm_num [c6St, updD_apply]
  · rw [c6big]
    norm_num [c6St, updD_apply]
  · rw [h10, c6big]
    rfl

/-- C2: the clock does not clamp dt at 0 on backwards time.  Calling loop
with now = 0 after last = 1000 yields dt = min(0.05, -1) = -1, and the
falling pellet moves backward from y = 100 to y = -40 on that step, against
the claim that dt is clamped to 0 and nothing moves backward. -/
theorem negative_dt_moves_pellet_backward :
    clockDt 1000 0 = -1 ∧
    (loopStep simpleBowl [] [] c2State 0).sim.pellets = [⟨1, 50, -40, 140, 6⟩] := by
  constructor
  · norm_num [clockDt, min_def]
  · norm_num [loopStep, clockDt, min_def, c2State, simpleBowl, physicsStep, stepPellets,
      List.filterMap_cons, pelletFate, advanceY, pelletHit, bottomY, gravelHeight,
      targetsNonempty, stepBubbles, bestDistPellet, refYFor]

/-- C8: while paused, one loop(now) call leaves pellets, bubbles and fish
depths untouched no matter how much time passed, and still sets last = now,
so the step after resuming derives its delta only from the immediately
preceding call. -/
theorem paused_step_freezes_state (bowl : BowlRect) (rects : List (ℕ × Rect))
    (fishL : List FishSpec) (st : DriverState) (now : ℚ) (h : st.paused = true) :
    loopStep bowl rects fishL st now = ⟨now, true, st.sim⟩ := by
  simp [loopStep, h]

/-- Witness for paused_step_freezes_state at a concrete paused state. -/
theorem paused_step_freezes_state_witness :
    loopStep simpleBowl [] [] ⟨1000, true, ⟨[], [], fun _ => none⟩⟩ 5000 =
      ⟨5000, true, ⟨[], [], fun _ => none⟩⟩ :=
  paused_step_freezes_state simpleBowl [] [] ⟨1000, true, ⟨[], [], fun _ => none⟩⟩ 5000 rfl

lemma c7step1 : c7g (c7St (-8)) = c7St 132 := by
  norm_num [c7g, c7St, physicsStep, stepPellets, List.filterMap_cons, pelletFate, advanceY,
    pelletHit, bottomY, gravelHeight, targetsNonempty, stepBubbles, bestDistPellet, refYFor,
    c7Bowl]

lemma c7step2 : c7g (c7St 132) = c7St 272 := by
  norm_num [c7g, c7St, physicsStep, stepPellets, List.filterMap_cons, pelletFate, advanceY,
    pelletHit, bottomY, gravelHeight, targetsNonempty, stepBubbles, bestDistPellet, refYFor,
    c7Bowl]

lemma c7step3 : c7g (c7St 272) = c7Empty := by
  norm_num [c7g, c7St, c7Empty, physicsStep, stepPellets, List.filterMap_cons, pelletFate,
    advanceY, pelletHit, bottomY, gravelHeight, targetsNonempty, stepBubbles, bestDistPellet,
    refYFor, c7Bowl]

lemma c7fixed : c7g c7Empty = c7Empty := by
  norm_num [c7g, c7Empty, physicsStep, stepPellets, stepBubbles, relaxDepths, depthsFold,
    targetsNonempty]

/-- C7: the pellet starting at y = -8 with velocity 140 in a bowl with floor
line 400 and no fish is gone from the falling-pellet list within
ceil((400 - 6 + 8) / 140) = 3 steps of dt = 1 and on every later step. -/
theorem pellet_removed_within_three_steps :
    ∀ n : ℕ, 3 ≤ n → (c7g^[n] (c7St (-8))).pellets = [] := by
  intro n hn
  obtain ⟨k, rfl⟩ : ∃ k, n = k + 3 := ⟨n - 3, by omega⟩
  rw [Function.iterate_add_apply]
  have h3 : c7g^[3] (c7St (-8)) = c7Empty := by
    rw [show c7g^[3] (c7St (-8)) = c7g (c7g (c7g (c7St (-8)))) from rfl, c7step1, c7step2,
      c7step3]
  rw [h3, Function.iterate_fixed c7fixed]
  rfl

/-- Witness for pellet_removed_within_three_steps at n = 3. -/
theorem pellet_removed_within_three_steps_witness :
    (c7g^[3] (c7St (-8))).pellets = [] :=
  pellet_removed_within_three_steps 3 (by norm_num)

end Fishbowl
